import Mathlib

/-!
Verification of the data-access core of the healthcare-fraud-detection
dashboard (`App.py`).

The application loads two artifacts (a provider-level Feature Table and a
SHAP Explainability Array), and offers read-only views over them: a Row
Filter (Provider Explorer tab), a per-entity lookup with an artifact
existence check (Model Explainability tab), and a drill-down guarded by an
emptiness check.  We embed the rows with the fields the in-scope logic
reads (`Provider`, `total_claims`, `PotentialFraud`); `total_claims` is a
claim count (non-negative integer) and `PotentialFraud` the binary label
column compared against 0/1 by the filter.  SHAP attribution scores are
real numbers; we model them as rationals, since no view performs any
arithmetic on them.
-/

set_option maxHeartbeats 1000000

namespace FraudDashboard

/-- One record of the Feature Table: the columns read by the in-scope
logic of `App.py` (the filter masks and the drill-down/lookup). -/
structure Row where
  Provider : String
  total_claims : Nat
  PotentialFraud : Nat
deriving DecidableEq, Repr

/-- The SHAP Explainability Array: one row per entity, one attribution
score per explained feature. -/
abbrev ShapArray := List (List Rat)

/-- The three options of the `Filter by Fraud Label` selectbox
(`["All", "Fraudulent", "Legitimate"]`, App.py line 88). -/
inductive FraudFilter where
  | All
  | Fraudulent
  | Legitimate
deriving DecidableEq, Repr

/-- The Provider Explorer Row Filter (App.py lines 90-94):
`filtered = features.copy()`; if the label filter is not `All`, keep rows
with `PotentialFraud == val` where `val` is 1 for `Fraudulent` and 0
otherwise; then keep rows with `total_claims >= min_claims`. -/
def rowFilter (features : List Row) (fraud_filter : FraudFilter) (min_claims : Nat) :
    List Row :=
  let filtered := features
  let filtered :=
    if fraud_filter ≠ FraudFilter.All then
      let val : Nat := if fraud_filter = FraudFilter.Fraudulent then 1 else 0
      filtered.filter (fun r => r.PotentialFraud == val)
    else filtered
  filtered.filter (fun r => decide (min_claims ≤ r.total_claims))

/-- The label predicate of the specification: vacuous for `All`,
`PotentialFraud = 1` for `Fraudulent`, `PotentialFraud = 0` for
`Legitimate`. -/
def labelPasses (fraud_filter : FraudFilter) (r : Row) : Prop :=
  match fraud_filter with
  | .All => True
  | .Fraudulent => r.PotentialFraud = 1
  | .Legitimate => r.PotentialFraud = 0

instance (f : FraudFilter) (r : Row) : Decidable (labelPasses f r) :=
  match f with
  | .All => .isTrue trivial
  | .Fraudulent => inferInstanceAs (Decidable (r.PotentialFraud = 1))
  | .Legitimate => inferInstanceAs (Decidable (r.PotentialFraud = 0))

/-- The three-row example table of the specification (section 8). -/
def exTable : List Row :=
  [⟨"P1", 5, 0⟩, ⟨"P2", 12, 1⟩, ⟨"P3", 0, 1⟩]

lemma rowFilter_All (t : List Row) (n : Nat) :
    rowFilter t FraudFilter.All n = t.filter (fun r => decide (n ≤ r.total_claims)) :=
  rfl

lemma rowFilter_Fraudulent (t : List Row) (n : Nat) :
    rowFilter t FraudFilter.Fraudulent n =
      (t.filter (fun r => r.PotentialFraud == 1)).filter
        (fun r => decide (n ≤ r.total_claims)) :=
  rfl

lemma rowFilter_Legitimate (t : List Row) (n : Nat) :
    rowFilter t FraudFilter.Legitimate n =
      (t.filter (fun r => r.PotentialFraud == 0)).filter
        (fun r => decide (n ≤ r.total_claims)) :=
  rfl

/-- C1: the Row Filter returns an order-preserving subsequence; every
returned row satisfies the label predicate and the threshold; no row
satisfying both is omitted; filtering with (`All`, 0) returns the whole
table. -/
theorem rowFilter_correct (t : List Row) (f : FraudFilter) (n : Nat) :
    (rowFilter t f n).Sublist t ∧
    (∀ r ∈ rowFilter t f n, labelPasses f r ∧ n ≤ r.total_claims) ∧
    (∀ r ∈ t, labelPasses f r → n ≤ r.total_claims → r ∈ rowFilter t f n) ∧
    rowFilter t FraudFilter.All 0 = t := by
  refine ⟨?_, ?_, ?_, ?_⟩
  · cases f
    · rw [rowFilter_All]; exact List.filter_sublist t
    · rw [rowFilter_Fraudulent]
      exact (List.filter_sublist _).trans (List.filter_sublist t)
    · rw [rowFilter_Legitimate]
      exact (List.filter_sublist _).trans (List.filter_sublist t)
  · intro r hr
    cases f
    · rw [rowFilter_All, List.mem_filter] at hr
      exact ⟨trivial, by simpa using hr.2⟩
    · rw [rowFilter_Fraudulent, List.mem_filter, List.mem_filter] at hr
      exact ⟨by simpa [labelPasses] using hr.1.2, by simpa using hr.2⟩
    · rw [rowFilter_Legitimate, List.mem_filter, List.mem_filter] at hr
      exact ⟨by simpa [labelPasses] using hr.1.2, by simpa using hr.2⟩
  · intro r hrt hlab hthr
    cases f
    · rw [rowFilter_All, List.mem_filter]
      exact ⟨hrt, by simpa using hthr⟩
    · rw [rowFilter_Fraudulent, List.mem_filter, List.mem_filter]
      exact ⟨⟨hrt, by simpa [labelPasses] using hlab⟩, by simpa using hthr⟩
    · rw [rowFilter_Legitimate, List.mem_filter, List.mem_filter]
      exact ⟨⟨hrt, by simpa [labelPasses] using hlab⟩, by simpa using hthr⟩
  · rw [rowFilter_All]
    apply List.filter_eq_self.mpr
    intro r _
    simp

/-- C1 witness: the Row Filter conclusions instantiated on the example
table at concrete inputs. -/
theorem rowFilter_correct_witness :
    rowFilter exTable FraudFilter.All 0 = exTable ∧
    Row.mk "P2" 12 1 ∈ rowFilter exTable FraudFilter.Fraudulent 1 :=
  ⟨(rowFilter_correct exTable FraudFilter.All 0).2.2.2,
   (rowFilter_correct exTable FraudFilter.Fraudulent 1).2.2.1
     ⟨"P2", 12, 1⟩ (by decide) (by decide) (by decide)⟩

/-- C2: the example table filtered with (`Fraudulent`, min_claims = 1)
yields exactly the `P2` row. -/
theorem rowFilter_example_fraudulent :
    rowFilter exTable FraudFilter.Fraudulent 1 = [⟨"P2", 12, 1⟩] := by
  decide

/-- The per-process application state: the two artifacts loaded at start
(App.py lines 26-27). -/
structure AppState where
  features : List Row
  shap_values : ShapArray
deriving DecidableEq, Repr

/-- The Provider Explorer interaction (App.py lines 88-95): it works on
`features.copy()` and returns the displayed rows together with the
application state after the interaction. -/
def providerExplorer (st : AppState) (fraud_filter : FraudFilter) (min_claims : Nat) :
    List Row × AppState :=
  (rowFilter st.features fraud_filter min_claims, st)

/-- C8: the Row Filter has no side effect on the loaded state: the
Feature Table and the Explainability Array after the interaction are the
ones loaded at start. -/
theorem providerExplorer_no_side_effects (st : AppState) (f : FraudFilter) (n : Nat) :
    (providerExplorer st f n).2.features = st.features ∧
    (providerExplorer st f n).2.shap_values = st.shap_values ∧
    (providerExplorer st f n).2 = st :=
  ⟨rfl, rfl, rfl⟩

/-- C9: the Row Filter is deterministic: two runs over states holding the
same Feature Table, with the same label filter and threshold, display the
same output sequence. -/
theorem providerExplorer_deterministic (st₁ st₂ : AppState) (f : FraudFilter) (n : Nat)
    (h : st₁.features = st₂.features) :
    (providerExplorer st₁ f n).1 = (providerExplorer st₂ f n).1 := by
  simp [providerExplorer, h]

/-- C9 witness: two states with equal tables but different SHAP arrays
give identical filter output. -/
theorem providerExplorer_deterministic_witness :
    (providerExplorer ⟨exTable, [[1]]⟩ FraudFilter.Fraudulent 1).1 =
      (providerExplorer ⟨exTable, []⟩ FraudFilter.Fraudulent 1).1 :=
  providerExplorer_deterministic ⟨exTable, [[1]]⟩ ⟨exTable, []⟩ FraudFilter.Fraudulent 1 rfl

/-- The per-entity lookup of the Model Explainability tab (App.py line
114): `features.index[features["Provider"] == sel_id][0]`, the position of
the first row whose `Provider` equals the identifier; `none` models the
IndexError raised when no row matches. -/
def lookupIdx : List Row → String → Option Nat
  | [], _ => none
  | r :: rs, sel_id =>
    if r.Provider == sel_id then some 0
    else (lookupIdx rs sel_id).map (· + 1)

lemma lookupIdx_isSome_of_mem {t : List Row} {p : String}
    (hp : p ∈ t.map Row.Provider) : ∃ i, lookupIdx t p = some i := by
  induction t with
  | nil => simp at hp
  | cons r rs ih =>
    by_cases h : r.Provider = p
    · exact ⟨0, by simp [lookupIdx, h]⟩
    · have hp' : p ∈ rs.map Row.Provider := by
        rcases List.mem_map.mp hp with ⟨s, hs, hps⟩
        rcases List.mem_cons.mp hs with rfl | hs'
        · exact absurd hps h
        · exact List.mem_map.mpr ⟨s, hs', hps⟩
      rcases ih hp' with ⟨i, hi⟩
      exact ⟨i + 1, by simp [lookupIdx, h, hi]⟩

lemma lookupIdx_spec {t : List Row} {p : String} {i : Nat}
    (h : lookupIdx t p = some i) :
    i < t.length ∧ (∀ r, t[i]? = some r → r.Provider = p) ∧
      (∀ j, j < i → ∀ r, t[j]? = some r → r.Provider ≠ p) := by
  induction t generalizing i with
  | nil => simp [lookupIdx] at h
  | cons r rs ih =>
    by_cases hr : r.Provider = p
    · simp [lookupIdx, hr] at h
      subst h
      refine ⟨Nat.succ_pos _, ?_, ?_⟩
      · intro s hs
        rw [List.getElem?_cons_zero] at hs
        injection hs with h
        exact h ▸ hr
      · intro j hj; omega
    · simp [lookupIdx, hr] at h
      rcases h with ⟨i', hi', rfl⟩
      rcases ih hi' with ⟨hlen, hget, hfirst⟩
      refine ⟨by simpa using Nat.succ_lt_succ hlen, ?_, ?_⟩
      · intro s hs
        rw [List.getElem?_cons_succ] at hs
        exact hget s hs
      · intro j hj s hs
        match j with
        | 0 =>
          rw [List.getElem?_cons_zero] at hs
          injection hs with h
          exact h ▸ hr
        | j' + 1 =>
          rw [List.getElem?_cons_succ] at hs
          exact hfirst j' (by omega) s hs

/-- C3: for every provider present in the table, the per-entity lookup
returns the 0-based position of the first row whose `Provider` field
equals the identifier; that position is a valid row index, repeated
lookups agree, and on the example table `P3` is found at position 2. -/
theorem lookupIdx_correct (t : List Row) (p : String)
    (hp : p ∈ t.map Row.Provider) :
    (∃ i, lookupIdx t p = some i ∧ i < t.length ∧
       (∀ r, t[i]? = some r → r.Provider = p) ∧
       (∀ j, j < i → ∀ r, t[j]? = some r → r.Provider ≠ p)) ∧
    lookupIdx t p = lookupIdx t p ∧
    lookupIdx exTable "P3" = some 2 := by
  rcases lookupIdx_isSome_of_mem hp with ⟨i, hi⟩
  rcases lookupIdx_spec hi with ⟨h1, h2, h3⟩
  exact ⟨⟨i, hi, h1, h2, h3⟩, rfl, by decide⟩

/-- C3 witness: the lookup conclusions instantiated on the example table. -/
theorem lookupIdx_correct_witness :
    ∃ i, lookupIdx exTable "P2" = some i ∧ i < exTable.length ∧
      (∀ r, exTable[i]? = some r → r.Provider = "P2") ∧
      (∀ j, j < i → ∀ r, exTable[j]? = some r → r.Provider ≠ "P2") :=
  (lookupIdx_correct exTable "P2" (by decide)).1

/-- The artifact part of the Model Explainability view: either the
pre-rendered waterfall image for the computed index is shown, or the
"SHAP plot not found" informational warning. -/
inductive ArtifactView where
  | image (idx : Nat)
  | notFound
deriving DecidableEq, Repr

/-- The Model Explainability view: the artifact part and the selected
provider's feature values (`features.iloc[idx]`). -/
structure ExplainView where
  artifact : ArtifactView
  featureValues : Row
deriving DecidableEq, Repr

/-- The Model Explainability tab (App.py lines 112-122): look up the
index of the selected provider, check `os.path.exists` for the waterfall
image at that index (modelled by the predicate `artExists`), show the
image or the warning, then show the feature values of the row at the
index.  `none` models an uncaught exception. -/
def modelExplainability (features : List Row) (artExists : Nat → Bool)
    (sel_id : String) : Option ExplainView :=
  match lookupIdx features sel_id with
  | none => none
  | some idx =>
    match features[idx]? with
    | none => none
    | some r =>
      some { artifact := if artExists idx then .image idx else .notFound
             featureValues := r }

/-- C4: when the artifact for the computed index does not exist, the
Model Explainability view does not fail: it produces the non-fatal
"not found" state and still shows the provider's feature values. -/
theorem modelExplainability_notFound (features : List Row)
    (artExists : Nat → Bool) (sel_id : String) (idx : Nat)
    (h1 : lookupIdx features sel_id = some idx) (h2 : artExists idx = false) :
    ∃ v, modelExplainability features artExists sel_id = some v ∧
      v.artifact = ArtifactView.notFound ∧ v.featureValues.Provider = sel_id := by
  rcases lookupIdx_spec h1 with ⟨hlen, hget, -⟩
  rcases List.getElem?_eq_some.mpr ⟨hlen, rfl⟩ with hidx
  refine ⟨⟨ArtifactView.notFound, features[idx]⟩, ?_, rfl, ?_⟩
  · simp [modelExplainability, h1, hidx, h2]
  · exact hget _ hidx

/-- C4 witness: on the example table, with no artifact on disk, looking
up `P3` yields the "not found" state with `P3`'s feature values. -/
theorem modelExplainability_notFound_witness :
    ∃ v, modelExplainability exTable (fun _ => false) "P3" = some v ∧
      v.artifact = ArtifactView.notFound ∧ v.featureValues.Provider = "P3" :=
  modelExplainability_notFound exTable (fun _ => false) "P3" 2 (by decide) rfl

/-- The error raised when a source file is missing or unreadable at load
time (spec section 7). -/
inductive LoadError where
  | DataUnavailable
deriving DecidableEq, Repr

/-- The condition of a source file on disk: absent, present but
malformed, or present and well-formed with the given content. -/
inductive FileState (α : Type) where
  | missing
  | malformed
  | good (v : α)
deriving DecidableEq, Repr

/-- The persistent storage the two loaders read from: the Feature Table
parquet file and the SHAP values npy file. -/
structure Store where
  featureFile : FileState (List Row)
  shapFile : FileState ShapArray

/-- Modelled from the spec: the raising behavior of the external file
readers (`pd.read_parquet` / `np.load`, whose code is outside this
repository) — "Fails with a `DataUnavailable` error if the source file is
missing or malformed". -/
def readFile {α : Type} : FileState α → Except LoadError α
  | .missing => .error .DataUnavailable
  | .malformed => .error .DataUnavailable
  | .good v => .ok v

/-- The Dataset Loader (App.py lines 17-19): reads the Feature Table
from storage; any read failure propagates, as the body has no handler. -/
def load_data (s : Store) : Except LoadError (List Row) :=
  readFile s.featureFile

/-- The Explainability Array Loader (App.py lines 22-24): reads the SHAP
array from storage; any read failure propagates. -/
def load_shap (s : Store) : Except LoadError ShapArray :=
  readFile s.shapFile

/-- Application start (App.py lines 26-27): both loaders run once, with
no handler around them, so a loader error is fatal for the session. -/
def appInit (s : Store) : Except LoadError AppState := do
  let features ← load_data s
  let shap_values ← load_shap s
  return ⟨features, shap_values⟩

/-- The memoization cell attached to a loader: the cached value, if any,
and how many times storage has been read. -/
structure CacheState (α : Type) where
  cache : Option α
  reads : Nat
deriving DecidableEq, Repr

/-- Modelled from the spec: the `@st.cache_data` memoization wrapping
both loaders (the caching runtime is outside this repository) —
"memoized-on-first-call semantics": a cache hit returns the cached value
without reading storage; a miss reads storage once and caches a
successful result. -/
def cachedLoad {α : Type} (read : Except LoadError α) (c : CacheState α) :
    Except LoadError α × CacheState α :=
  match c.cache with
  | some v => (.ok v, c)
  | none =>
    match read with
    | .ok v => (.ok v, ⟨some v, c.reads + 1⟩)
    | .error e => (.error e, ⟨none, c.reads + 1⟩)

lemma cachedLoad_idem {α : Type} (read : Except LoadError α) (v : α)
    (c₁ : CacheState α) (h : cachedLoad read ⟨none, 0⟩ = (.ok v, c₁)) :
    cachedLoad read c₁ = (.ok v, c₁) := by
  cases read with
  | ok w =>
    simp [cachedLoad] at h
    rcases h with ⟨rfl, rfl⟩
    simp [cachedLoad]
  | error e =>
    simp [cachedLoad] at h

/-- C5: both loaders are idempotent under the memoization: after a first
successful call, a second call returns the same content and leaves the
storage-read count unchanged (no re-read). -/
theorem loaders_idempotent (s : Store) :
    (∀ v c₁, cachedLoad (load_data s) ⟨none, 0⟩ = (.ok v, c₁) →
       cachedLoad (load_data s) c₁ = (.ok v, c₁)) ∧
    (∀ a c₂, cachedLoad (load_shap s) ⟨none, 0⟩ = (.ok a, c₂) →
       cachedLoad (load_shap s) c₂ = (.ok a, c₂)) :=
  ⟨fun _ _ h => cachedLoad_idem _ _ _ h, fun _ _ h => cachedLoad_idem _ _ _ h⟩

/-- C5 witness: the idempotence conclusions at a concrete store. -/
theorem loaders_idempotent_witness :
    cachedLoad (load_data ⟨.good exTable, .good []⟩)
        (cachedLoad (load_data ⟨.good exTable, .good []⟩) ⟨none, 0⟩).2 =
      (.ok exTable, ⟨some exTable, 1⟩) :=
  (loaders_idempotent ⟨.good exTable, .good []⟩).1 exTable ⟨some exTable, 1⟩ rfl

/-- C6: a missing or malformed source file makes the loader fail with
`DataUnavailable`, and the failure propagates fatally through application
start with no fallback state produced; a well-formed file makes the
loader succeed with its content. -/
theorem loaders_fatal_on_unavailable (s : Store) :
    (s.featureFile = .missing ∨ s.featureFile = .malformed →
       load_data s = .error LoadError.DataUnavailable ∧
       appInit s = .error LoadError.DataUnavailable) ∧
    (s.shapFile = .missing ∨ s.shapFile = .malformed →
       load_shap s = .error LoadError.DataUnavailable) ∧
    (∀ t, s.featureFile = .good t → load_data s = .ok t) ∧
    (∀ a, s.shapFile = .good a → load_shap s = .ok a) := by
  refine ⟨?_, ?_, ?_, ?_⟩
  · rintro (h | h) <;>
      simp [load_data, appInit, readFile, h, Bind.bind, Except.bind]
  · rintro (h | h) <;> simp [load_shap, readFile, h]
  · intro t h; simp [load_data, readFile, h]
  · intro a h; simp [load_shap, readFile, h]

/-- C6 witness: the loader conclusions at concrete stores. -/
theorem loaders_fatal_on_unavailable_witness :
    appInit ⟨.missing, .good []⟩ = .error LoadError.DataUnavailable ∧
    load_data ⟨.good exTable, .missing⟩ = .ok exTable :=
  ⟨((loaders_fatal_on_unavailable ⟨.missing, .good []⟩).1 (Or.inl rfl)).2,
   (loaders_fatal_on_unavailable ⟨.good exTable, .missing⟩).2.2.1 exTable rfl⟩

/-- C7: no row-count validation: for well-formed files, application
start succeeds even when the SHAP array's row count differs from the
Feature Table's, and no error is raised for the mismatch. -/
theorem no_rowcount_validation (t : List Row) (a : ShapArray)
    (h : t.length ≠ a.length) :
    appInit ⟨.good t, .good a⟩ = .ok ⟨t, a⟩ := by
  simp [appInit, load_data, load_shap, readFile, Bind.bind, Except.bind,
    Pure.pure, Except.pure]

/-- C7 witness: a 3-row table with a 1-row SHAP array still loads. -/
theorem no_rowcount_validation_witness :
    exTable.length ≠ ([[1]] : ShapArray).length ∧
    appInit ⟨.good exTable, .good [[1]]⟩ = .ok ⟨exTable, [[1]]⟩ :=
  ⟨by decide, no_rowcount_validation exTable [[1]] (by decide)⟩

/-- The drill-down part of the Provider Explorer (App.py lines 99-105):
either the "No providers match filter." warning, or the details of the
selected row; `crash` models an uncaught IndexError from `iloc[0]`. -/
inductive DrillView where
  | warning
  | details (r : Row)
  | crash
deriving DecidableEq, Repr

/-- `pandas.Series.unique` over a string column: the distinct values in
order of first occurrence (`seen` accumulates the values already kept). -/
def uniqueAux : List String → List String → List String
  | [], _ => []
  | x :: xs, seen =>
    if seen.contains x then uniqueAux xs seen
    else x :: uniqueAux xs (x :: seen)

/-- `filtered["Provider"].unique()` (App.py line 99). -/
def uniqueProviders (rows : List Row) : List String :=
  uniqueAux (rows.map Row.Provider) []

/-- The drill-down (App.py lines 99-105): if no provider survives the
filter, show the warning; otherwise take the first row of the filtered
table whose `Provider` equals the chosen identifier. -/
def providerDrill (filtered : List Row) (sel_id : String) : DrillView :=
  let provider_ids := uniqueProviders filtered
  if provider_ids.length = 0 then .warning
  else
    match filtered.find? (fun r => r.Provider == sel_id) with
    | some sel_row => .details sel_row
    | none => .crash

lemma mem_uniqueAux {x : String} : ∀ {l seen : List String},
    x ∈ uniqueAux l seen → x ∈ l := by
  intro l
  induction l with
  | nil => intro seen h; simp [uniqueAux] at h
  | cons y ys ih =>
    intro seen h
    rw [uniqueAux] at h
    by_cases hy : seen.contains y
    · rw [if_pos hy] at h
      exact List.mem_cons_of_mem y (ih h)
    · rw [if_neg hy] at h
      rcases List.mem_cons.mp h with rfl | h'
      · exact List.mem_cons_self x ys
      · exact List.mem_cons_of_mem y (ih h')

lemma find?_provider_of_mem {filtered : List Row} {p : String}
    (hp : p ∈ filtered.map Row.Provider) :
    ∃ r, filtered.find? (fun r => r.Provider == p) = some r ∧ r.Provider = p := by
  induction filtered with
  | nil => simp at hp
  | cons r rs ih =>
    by_cases h : r.Provider = p
    · exact ⟨r, by simp [List.find?_cons, h], h⟩
    · have hp' : p ∈ rs.map Row.Provider := by
        rcases List.mem_map.mp hp with ⟨s, hs, hps⟩
        rcases List.mem_cons.mp hs with rfl | hs'
        · exact absurd hps h
        · exact List.mem_map.mpr ⟨s, hs', hps⟩
      rcases ih hp' with ⟨r', hr', hpr'⟩
      exact ⟨r', by simp [List.find?_cons, h, hr'], hpr'⟩

/-- C10: the drill-down's first-row access is guarded: an empty provider
list produces the warning and accesses no row; a selection drawn from the
filtered table's provider list always reaches the details of a row whose
`Provider` equals the selection, never the crash state. -/
theorem providerDrill_guarded (filtered : List Row) (sel : String) :
    (uniqueProviders filtered = [] →
       ∀ s, providerDrill filtered s = DrillView.warning) ∧
    (sel ∈ uniqueProviders filtered →
       ∃ r, providerDrill filtered sel = DrillView.details r ∧
         r.Provider = sel) := by
  constructor
  · intro hempty s
    simp [providerDrill, hempty]
  · intro hsel
    have hmem : sel ∈ filtered.map Row.Provider := mem_uniqueAux hsel
    have hne : uniqueProviders filtered ≠ [] :=
      fun h => by simp [h] at hsel
    rcases find?_provider_of_mem hmem with ⟨r, hr, hpr⟩
    exact ⟨r, by simp [providerDrill, hr, hne], hpr⟩

/-- C10 witness: the guard conclusions at concrete inputs: an empty
filtered table warns, and selecting `P2` from the example table reaches
its row. -/
theorem providerDrill_guarded_witness :
    providerDrill [] "P1" = DrillView.warning ∧
    ∃ r, providerDrill exTable "P2" = DrillView.details r ∧ r.Provider = "P2" :=
  ⟨(providerDrill_guarded [] "P1").1 (by decide) "P1",
   (providerDrill_guarded exTable "P2").2 (by decide)⟩

end FraudDashboard
